import Mathlib

/-!
Shallow embedding of `src/asus_qca_fix_checksum.c` (openwrt-firmware-utils).

The tool patches an ASUS QCA/QCN custom tail record into the image-name
region of a legacy u-boot image header and recomputes the header CRC-32.
Buffers are modelled as `List Nat` of byte values; `uint8_t` reads reduce
the stored value modulo 256, exactly where the C type system forces a byte.
Fatal `exit(1)` paths are modelled with `Except String`.
-/

set_option maxRecDepth 8000

deriving instance DecidableEq for Except

namespace AsusQca

/-- `version_t` from the C source: two `uint8_t` fields `major`, `minor`. -/
structure version_t where
  major : Nat
  minor : Nat
deriving DecidableEq, Repr

/-- `TAIL` from the C source (`MAX_STRING = 12`, `MAX_VER = 5`):
`version_t kernel; version_t fs; char productid[12]; uint16_t sn;
uint16_t en; uint8_t pkey; uint8_t key; version_t hw[5];`.
The struct is 32 bytes with no padding (all offsets are naturally aligned). -/
structure TAIL where
  kernel : version_t
  fs : version_t
  productid : List Nat
  sn : Nat
  en : Nat
  pkey : Nat
  key : Nat
  hw : List version_t
deriving DecidableEq, Repr

/-- `TAIL tail = {};` in `main`: every field zero-initialized. -/
def zeroTail : TAIL :=
  { kernel := ⟨0, 0⟩, fs := ⟨0, 0⟩, productid := List.replicate 12 0,
    sn := 0, en := 0, pkey := 0, key := 0, hw := List.replicate 5 ⟨0, 0⟩ }

/-- Big-endian 32-bit read at `off`: `ntohl` applied to the four bytes
`buf[off] .. buf[off+3]` (out-of-range reads give the default 0). -/
def readBE32 (buf : List Nat) (off : Nat) : Nat :=
  buf.getD off 0 % 256 * 16777216 + buf.getD (off + 1) 0 % 256 * 65536 +
    buf.getD (off + 2) 0 % 256 * 256 + buf.getD (off + 3) 0 % 256

/-- Big-endian serialization of a 32-bit value (`htonl` then store). -/
def be32 (x : Nat) : List Nat :=
  [x / 16777216 % 256, x / 65536 % 256, x / 256 % 256, x % 256]

/-- A `uint16_t` stored in host (little-endian) byte order, as the C source
does for `sn` and `en` (no `htons` is applied to them). -/
def le16 (x : Nat) : List Nat := [x % 256, x / 256 % 256]

/-- Store the byte list `vs` into `buf` starting at index `off`
(out-of-range stores are dropped, as `List.set` is). -/
def writeBytes : List Nat → Nat → List Nat → List Nat
  | buf, _, [] => buf
  | buf, off, v :: vs => writeBytes (buf.set off v) (off + 1) vs

/-- One bit-step of the reflected CRC-32 with polynomial `0xEDB88320`. -/
def crc32_step (c : Nat) : Nat :=
  if c % 2 = 1 then Nat.xor (c / 2) 0xEDB88320 else c / 2

/-- One table entry of the zlib CRC-32: eight bit-steps applied to `n`. -/
def crc32_table_entry (n : Nat) : Nat :=
  (List.range 8).foldl (fun c _ => crc32_step c) n

/-- Process one byte of the zlib CRC-32 state machine. -/
def crc32_update (crc b : Nat) : Nat :=
  Nat.xor (crc32_table_entry (Nat.xor crc b % 256)) (crc / 256)

/-- zlib `crc32(0, buf, len)` over the given byte list: initial value
`0xFFFFFFFF`, per-byte table step, final complement. -/
def crc32_zlib (bytes : List Nat) : Nat :=
  Nat.xor (bytes.foldl crc32_update 0xFFFFFFFF) 0xFFFFFFFF

/-- In-memory layout of a `TAIL` value as the 32 bytes the struct assignment
`header->u.tail = *tail;` stores: `kernel` at 0, `fs` at 2, `productid` at
4, `sn` at 16 and `en` at 18 (host little-endian order), `pkey` at 20,
`key` at 21, `hw` at 22. -/
def serializeTail (t : TAIL) : List Nat :=
  [t.kernel.major % 256, t.kernel.minor % 256, t.fs.major % 256, t.fs.minor % 256] ++
    (List.range 12).map (fun i => t.productid.getD i 0 % 256) ++
    le16 t.sn ++ le16 t.en ++ [t.pkey % 256, t.key % 256] ++
    ((List.range 5).map (fun i =>
      [(t.hw.getD i ⟨0, 0⟩).major % 256, (t.hw.getD i ⟨0, 0⟩).minor % 256])).flatten

/-- `(ntohl(header->ih_size) + sizeof(image_header_t)) >> 1`: the declared
data size (big-endian 32-bit field at byte offset 12) plus the 64-byte
header size, halved. -/
def checksum_b_offset (image : List Nat) : Nat :=
  (readBE32 image 12 + 64) / 2

/-- `fix_checksum` from the C source. Reads `checksum_a = image[0]` and the
data-size field, checks `image_len < checksum_b_offset` (fatal error, the
message the C source prints), reads `checksum_b = image[checksum_b_offset]`,
sets `tail->key = checksum_a + ~checksum_b` (uint8 wraparound), copies the
first 11 bytes of the current image-name field into `tail->productid`
(the 12th byte keeps its old value), overlays the 32-byte tail record onto
bytes 32..63, zeroes the header CRC field (bytes 4..7), recomputes the
zlib CRC-32 over the first 64 bytes and stores it big-endian at bytes 4..7.
Returns the mutated buffer together with the mutated tail record. -/
def fix_checksum (image : List Nat) (image_len : Nat) (tail : TAIL) :
    Except String (List Nat × TAIL) :=
  let checksum_a := image.getD 0 0 % 256
  let off := checksum_b_offset image
  if image_len < off then
    .error "too small uImage size"
  else
    let checksum_b := image.getD off 0 % 256
    let tail1 : TAIL := { tail with key := (checksum_a + (255 - checksum_b)) % 256 }
    let tail2 : TAIL := { tail1 with
      productid := (List.range 11).map (fun i => image.getD (32 + i) 0 % 256) ++
        [tail1.productid.getD 11 0] }
    let image1 := writeBytes image 32 (serializeTail tail2)
    let image2 := writeBytes image1 4 [0, 0, 0, 0]
    let recalc_crc := crc32_zlib (image2.take 64)
    let image3 := writeBytes image2 4 (be32 recalc_crc)
    .ok (image3, tail2)

/-- The tail of `main` after the input file has been read into `filebuf`:
`fix_checksum` on the whole buffer, then either exit status 1 with no
output written (fatal path) or exit status 0 with the mutated buffer
written to the output file. Result: (exit status, bytes written to the
output file if any, error message printed if any). -/
def runMain (filebuf : List Nat) (tail : TAIL) : Nat × Option (List Nat) × Option String :=
  match fix_checksum filebuf filebuf.length tail with
  | .error msg => (1, none, some msg)
  | .ok (out, _) => (0, some out, none)

/-- Value of a digit run, as `sscanf` accumulates a decimal number. -/
def digitsToNat (ds : List Char) : Nat :=
  ds.foldl (fun acc c => acc * 10 + (c.toNat - 48)) 0

/-- The field extraction performed by
`sscanf(version, "%hhu.%hhu.%hhu.%hhu.%hu.%hu", ...)`: up to `n` decimal
fields separated by literal dots, matched left to right, stopping at the
first position where no digits are found; the returned list holds the
successfully matched fields in order (its length is the `sscanf` result). -/
def parseVersionFields : Nat → List Char → List Nat
  | 0, _ => []
  | n + 1, cs =>
    let ds := cs.takeWhile Char.isDigit
    let rest := cs.dropWhile Char.isDigit
    if ds.isEmpty then []
    else
      digitsToNat ds ::
        (match rest with
         | '.' :: rest2 => parseVersionFields n rest2
         | _ => [])

/-- Positional assignment of a matched `sscanf` field: an assigned value is
truncated to the field width (256 for `%hhu`, 65536 for `%hu`), an
unmatched field keeps its previous value. -/
def asgn (width old : Nat) : Option Nat → Nat
  | some v => v % width
  | none => old

/-- Outcome of the `-v` option branch of `main`. -/
structure VersionStepResult where
  tail : TAIL
  warned : Bool
  aborted : Bool
deriving DecidableEq, Repr

/-- The `-v` option branch of `main`: run the six-field `sscanf` over the
version string, assign the matched fields positionally into
`tail.kernel.major, tail.kernel.minor, tail.fs.major, tail.fs.minor,
tail.sn, tail.en`, and print a warning (without exiting: the branch
contains no `exit` call, so `aborted` is always `false`) when fewer or
more than 6 fields matched. -/
def versionStep (t : TAIL) (version : String) : VersionStepResult :=
  let vals := parseVersionFields 6 version.data
  { tail := { t with
      kernel := ⟨asgn 256 t.kernel.major vals[0]?, asgn 256 t.kernel.minor vals[1]?⟩,
      fs := ⟨asgn 256 t.fs.major vals[2]?, asgn 256 t.fs.minor vals[3]?⟩,
      sn := asgn 65536 t.sn vals[4]?,
      en := asgn 65536 t.en vals[5]? },
    warned := vals.length != 6,
    aborted := false }

/-- The six TailRecord fields fed by the version string, in `sscanf`
positional order. -/
def tailField (t : TAIL) : Nat → Nat
  | 0 => t.kernel.major
  | 1 => t.kernel.minor
  | 2 => t.fs.major
  | 3 => t.fs.minor
  | 4 => t.sn
  | _ => t.en

/-- Width of the `i`-th version field: `%hhu` for the first four, `%hu`
for the last two. -/
def fieldWidth (i : Nat) : Nat := if i < 4 then 256 else 65536

/-- Check that the tail produced by `versionStep` from an all-zero tail
holds the matched fields positionally and zero in every unmatched field. -/
def versionFieldsOk (s : String) : Bool :=
  let vals := parseVersionFields 6 s.data
  let t := (versionStep zeroTail s).tail
  (List.range 6).all fun i =>
    if i < vals.length then tailField t i == vals.getD i 0 % fieldWidth i
    else tailField t i == 0

/-- Buffer indices `fix_checksum` reads before the size check runs:
`checksum_a` at 0 and the data-size field at bytes 12..15. -/
def readsBeforeCheck : List Nat := [0, 12, 13, 14, 15]

/-- All buffer indices `fix_checksum` reads on the success path, for a
given `checksum_b_offset` value `off`: the pre-check reads, `checksum_b`
at `off`, the 11 image-name bytes the `memcpy` reads (32..42), and the 64
header bytes the CRC-32 reads (0..63). -/
def readFootprint (off : Nat) : List Nat :=
  readsBeforeCheck ++ [off] ++ (List.range 11).map (fun i => 32 + i) ++ List.range 64

/-- 2000-byte buffer whose data-size field (bytes 12..15, big-endian)
holds 1024; everything else zero. -/
def buf2000 : List Nat :=
  [0, 0, 0, 0, 0, 0, 0, 0, 0, 0, 0, 0, 0, 0, 4, 0] ++ List.replicate 1984 0

/-- 1000-byte buffer with data-size 1024, everything else zero. -/
def buf1000 : List Nat :=
  [0, 0, 0, 0, 0, 0, 0, 0, 0, 0, 0, 0, 0, 0, 4, 0] ++ List.replicate 984 0

/-- 500-byte buffer with data-size 1024, everything else zero. -/
def buf500 : List Nat :=
  [0, 0, 0, 0, 0, 0, 0, 0, 0, 0, 0, 0, 0, 0, 4, 0] ++ List.replicate 484 0

/-- 64-byte buffer with data-size 0 (hence `checksum_b_offset` 32) whose
image-name field starts with the byte 1. -/
def buf64 : List Nat := List.replicate 32 0 ++ [1] ++ List.replicate 31 0

/-- 32-byte all-zero buffer: data-size 0 gives `checksum_b_offset` 32,
equal to the buffer length. -/
def buf32 : List Nat := List.replicate 32 0

/-- The key byte `fix_checksum` computes:
`checksum_a + ~checksum_b` in uint8 arithmetic. -/
def keyOf (image : List Nat) : Nat :=
  (image.getD 0 0 % 256 + (255 - image.getD (checksum_b_offset image) 0 % 256)) % 256

/-- The mutated tail record `fix_checksum` produces on its success path. -/
def tailOf (image : List Nat) (tail : TAIL) : TAIL :=
  { tail with
    key := keyOf image,
    productid := (List.range 11).map (fun i => image.getD (32 + i) 0 % 256) ++
      [tail.productid.getD 11 0] }

/-- The buffer after the tail overlay and the zeroing of the CRC field,
i.e. the bytes the CRC-32 is computed over. -/
def zeroedHeaderOf (image : List Nat) (tail : TAIL) : List Nat :=
  writeBytes (writeBytes image 32 (serializeTail (tailOf image tail))) 4 [0, 0, 0, 0]

/-- The output buffer of `fix_checksum` on its success path. -/
def outOf (image : List Nat) (tail : TAIL) : List Nat :=
  writeBytes (zeroedHeaderOf image tail) 4
    (be32 (crc32_zlib ((zeroedHeaderOf image tail).take 64)))

/-- Frame check for `fix_checksum`: the output has the input's length and
agrees with the input everywhere outside the header-CRC field (bytes 4..7)
and the image-name/union region (bytes 32..63). -/
def frameAgrees (out image : List Nat) : Bool :=
  (out.length == image.length) &&
    ((List.range image.length).all fun i =>
      if i < 4 ∨ (8 ≤ i ∧ i < 32) ∨ 64 ≤ i then out.getD i 0 == image.getD i 0
      else true)

theorem getD_set_ne {l : List Nat} {i j : Nat} (h : i ≠ j) (v : Nat) :
    (l.set i v).getD j 0 = l.getD j 0 := by
  simp [List.getElem?_set_ne h]

theorem getD_set_self {l : List Nat} {i : Nat} (h : i < l.length) (v : Nat) :
    (l.set i v).getD i 0 = v := by
  simp [List.getElem?_set_self h]

theorem length_writeBytes (vs : List Nat) (buf : List Nat) (off : Nat) :
    (writeBytes buf off vs).length = buf.length := by
  induction vs generalizing buf off with
  | nil => rfl
  | cons v vs ih => simp [writeBytes, ih]

theorem getD_writeBytes_of_lt (vs : List Nat) (buf : List Nat) (off i : Nat)
    (h : i < off) :
    (writeBytes buf off vs).getD i 0 = buf.getD i 0 := by
  induction vs generalizing buf off with
  | nil => rfl
  | cons v vs ih =>
    rw [writeBytes, ih _ _ (by omega), getD_set_ne (by omega)]

theorem getD_writeBytes_of_ge (vs : List Nat) (buf : List Nat) (off i : Nat)
    (h : off + vs.length ≤ i) :
    (writeBytes buf off vs).getD i 0 = buf.getD i 0 := by
  induction vs generalizing buf off with
  | nil => rfl
  | cons v vs ih =>
    rw [writeBytes, ih _ _ (by simp at h ⊢; omega),
      getD_set_ne (by simp at h; omega)]

theorem getD_writeBytes_get (vs : List Nat) (buf : List Nat) (off j : Nat)
    (hj : j < vs.length) (hb : off + j < buf.length) :
    (writeBytes buf off vs).getD (off + j) 0 = vs.getD j 0 := by
  induction vs generalizing buf off j with
  | nil => simp at hj
  | cons v vs ih =>
    cases j with
    | zero =>
      rw [writeBytes, getD_writeBytes_of_lt _ _ _ _ (by omega)]
      simpa using getD_set_self (by omega) v
    | succ j =>
      have : off + (j + 1) = (off + 1) + j := by omega
      rw [writeBytes, this, ih _ _ _ (by simpa using hj) (by simpa using by omega)]
      rfl

theorem writeBytes_set_comm (vs : List Nat) (buf : List Nat) (off i : Nat)
    (h : i < off) (x : Nat) :
    writeBytes (buf.set i x) off vs = (writeBytes buf off vs).set i x := by
  induction vs generalizing buf off with
  | nil => rfl
  | cons v vs ih =>
    rw [writeBytes, writeBytes, List.set_comm _ _ _ (by omega), ih _ _ (by omega)]

theorem writeBytes_writeBytes_same (vs ws : List Nat) (buf : List Nat) (off : Nat)
    (h : vs.length = ws.length) :
    writeBytes (writeBytes buf off vs) off ws = writeBytes buf off ws := by
  induction vs generalizing buf off ws with
  | nil =>
    cases ws with
    | nil => rfl
    | cons w ws => simp at h
  | cons v vs ih =>
    cases ws with
    | nil => simp at h
    | cons w ws =>
      rw [writeBytes, writeBytes, writeBytes,
        ← writeBytes_set_comm vs (buf.set off v) (off + 1) off (by omega) w,
        List.set_set]
      exact ih _ _ _ (by simpa using h)

theorem crc32_step_lt (c : Nat) (h : c < 4294967296) :
    crc32_step c < 4294967296 := by
  unfold crc32_step
  split
  · have h1 : c / 2 < 2 ^ 32 := by omega
    have h2 : (0xEDB88320 : Nat) < 2 ^ 32 := by norm_num
    have := Nat.xor_lt_two_pow h1 h2
    simpa using this
  · omega

theorem crc32_table_entry_lt (n : Nat) (h : n < 4294967296) :
    crc32_table_entry n < 4294967296 := by
  unfold crc32_table_entry
  have : ∀ (l : List Nat) (c : Nat), c < 4294967296 →
      (l.foldl (fun c _ => crc32_step c) c) < 4294967296 := by
    intro l
    induction l with
    | nil => intro c hc; exact hc
    | cons a l ih => intro c hc; exact ih _ (crc32_step_lt c hc)
  exact this _ n h

theorem crc32_update_lt (crc b : Nat) (h : crc < 4294967296) :
    crc32_update crc b < 4294967296 := by
  unfold crc32_update
  have h1 : crc32_table_entry (Nat.xor crc b % 256) < 2 ^ 32 := by
    have := crc32_table_entry_lt (Nat.xor crc b % 256) (by omega)
    simpa using this
  have h2 : crc / 256 < 2 ^ 32 := by omega
  have := Nat.xor_lt_two_pow h1 h2
  simpa using this

theorem crc32_zlib_lt (bytes : List Nat) : crc32_zlib bytes < 4294967296 := by
  unfold crc32_zlib
  have : ∀ (l : List Nat) (c : Nat), c < 4294967296 →
      (l.foldl crc32_update c) < 4294967296 := by
    intro l
    induction l with
    | nil => intro c hc; exact hc
    | cons a l ih => intro c hc; exact ih _ (crc32_update_lt c a hc)
  have h1 : (bytes.foldl crc32_update 0xFFFFFFFF) < 2 ^ 32 := by
    have := this bytes 0xFFFFFFFF (by norm_num)
    simpa using this
  have h2 : (0xFFFFFFFF : Nat) < 2 ^ 32 := by norm_num
  have := Nat.xor_lt_two_pow h1 h2
  simpa using this

theorem getD_lt_256 (image : List Nat) (hwf : ∀ b ∈ image, b < 256) (i : Nat) :
    image.getD i 0 < 256 := by
  by_cases h : i < image.length
  · have : image.getD i 0 = image[i] := List.getD_eq_getElem image 0 h
    rw [this]
    exact hwf _ (List.getElem_mem h)
  · have : image[i]? = none := List.getElem?_eq_none (by omega)
    simp [this]

set_option maxRecDepth 4096 in
theorem xor255_eq (b : Nat) (h : b < 256) : Nat.xor 255 b = 255 - b := by
  revert h
  revert b
  decide

theorem serializeTail_length (t : TAIL) : (serializeTail t).length = 32 := rfl

theorem fix_checksum_eq_ok (image : List Nat) (image_len : Nat) (tail : TAIL)
    (hok : ¬ image_len < checksum_b_offset image) :
    fix_checksum image image_len tail = Except.ok (outOf image tail, tailOf image tail) := by
  simp only [fix_checksum, outOf, zeroedHeaderOf, tailOf, keyOf]
  rw [if_neg hok]

theorem fix_checksum_too_small (image : List Nat) (image_len : Nat) (tail : TAIL)
    (h : image_len < checksum_b_offset image) :
    fix_checksum image image_len tail = Except.error "too small uImage size" := by
  simp [fix_checksum, h]

theorem runMain_ok (filebuf : List Nat) (tail : TAIL)
    (h : ¬ filebuf.length < checksum_b_offset filebuf) :
    runMain filebuf tail = (0, some (outOf filebuf tail), none) := by
  unfold runMain
  rw [fix_checksum_eq_ok _ _ _ h]

theorem runMain_err (filebuf : List Nat) (tail : TAIL)
    (h : filebuf.length < checksum_b_offset filebuf) :
    runMain filebuf tail = (1, none, some "too small uImage size") := by
  unfold runMain
  rw [fix_checksum_too_small _ _ _ h]

theorem length_buf2000 : buf2000.length = 2000 := by simp [buf2000]

theorem length_buf1000 : buf1000.length = 1000 := by simp [buf1000]

theorem length_buf500 : buf500.length = 500 := by simp [buf500]

theorem offset_buf2000 : checksum_b_offset buf2000 = 544 := by decide

theorem offset_buf1000 : checksum_b_offset buf1000 = 544 := by decide

theorem offset_buf500 : checksum_b_offset buf500 = 544 := by decide

/-- C1: for every buffer that passes the size check, the TailRecord key
becomes `checksum_a + ~checksum_b` reduced modulo 256, with `checksum_a`
the byte at offset 0 and `checksum_b` the byte at `checksum_b_offset`,
both read from the pre-overlay buffer. -/
theorem C1_key_formula (image : List Nat) (image_len : Nat) (tail : TAIL)
    (hwf : ∀ b ∈ image, b < 256)
    (hok : ¬ image_len < checksum_b_offset image) :
    (fix_checksum image image_len tail).map (fun p => p.2.key) =
      Except.ok ((image.getD 0 0 + Nat.xor 255 (image.getD (checksum_b_offset image) 0)) % 256) := by
  rw [fix_checksum_eq_ok image image_len tail hok]
  have ha := getD_lt_256 image hwf 0
  have hb := getD_lt_256 image hwf (checksum_b_offset image)
  show Except.ok ((tailOf image tail).key) = _
  rw [show (tailOf image tail).key = keyOf image from rfl]
  unfold keyOf
  rw [Nat.mod_eq_of_lt ha, Nat.mod_eq_of_lt hb, xor255_eq _ hb]

theorem C1_key_formula_witness :
    (fix_checksum buf64 64 zeroTail).map (fun p => p.2.key) =
      Except.ok ((buf64.getD 0 0 + Nat.xor 255 (buf64.getD (checksum_b_offset buf64) 0)) % 256) :=
  C1_key_formula buf64 64 zeroTail (by decide) (by decide)

/-- C3 counterexample: on a buffer that is too small, the reported error
string is "too small uImage size", not "too small image size" as the
claim states. -/
theorem C3_message_counterexample :
    runMain buf500 zeroTail = (1, none, some "too small uImage size") ∧
      "too small uImage size" ≠ "too small image size" :=
  ⟨runMain_err buf500 zeroTail (by rw [length_buf500, offset_buf500]; omega), by decide⟩

/-- C3 (amended): for every buffer whose total length is smaller than
`checksum_b_offset`, the operation fails fatally with the reported error
"too small uImage size" and the process terminates with exit status 1
before any output is written. -/
theorem C3_too_small_fatal (image : List Nat) (tail : TAIL)
    (h : image.length < checksum_b_offset image) :
    fix_checksum image image.length tail = Except.error "too small uImage size" ∧
      runMain image tail = (1, none, some "too small uImage size") :=
  ⟨fix_checksum_too_small image image.length tail h, runMain_err image tail h⟩

theorem C3_too_small_fatal_witness :
    fix_checksum buf500 buf500.length zeroTail = Except.error "too small uImage size" ∧
      runMain buf500 zeroTail = (1, none, some "too small uImage size") :=
  C3_too_small_fatal buf500 zeroTail (by rw [length_buf500, offset_buf500]; omega)

/-- C4 counterexample: with data-size 1024 the offset is 544, and a
1000-byte buffer does NOT fail: the size check passes (1000 is not
smaller than 544) and output is produced with exit status 0. -/
theorem C4_counterexample :
    checksum_b_offset buf1000 = 544 ∧ buf1000.length = 1000 ∧
      (runMain buf1000 zeroTail).1 = 0 ∧
      (runMain buf1000 zeroTail).2.1.isSome = true := by
  refine ⟨offset_buf1000, length_buf1000, ?_, ?_⟩
  · rw [runMain_ok buf1000 zeroTail (by rw [length_buf1000, offset_buf1000]; omega)]
  · rw [runMain_ok buf1000 zeroTail (by rw [length_buf1000, offset_buf1000]; omega)]
    rfl

/-- C4 (amended): `checksum_b_offset` is the big-endian data-size field
plus the 64-byte header size, halved by integer division; for data-size
1024 the offset is 544, so a 2000-byte buffer passes the size check, a
1000-byte buffer passes it as well, and only a buffer shorter than 544
bytes (e.g. 500 bytes) fails fatally before any output write. -/
theorem C4_offset_amended :
    (∀ image : List Nat, checksum_b_offset image = (readBE32 image 12 + 64) / 2) ∧
      checksum_b_offset buf2000 = 544 ∧ (runMain buf2000 zeroTail).1 = 0 ∧
      checksum_b_offset buf1000 = 544 ∧ (runMain buf1000 zeroTail).1 = 0 ∧
      checksum_b_offset buf500 = 544 ∧
      runMain buf500 zeroTail = (1, none, some "too small uImage size") := by
  refine ⟨fun _ => rfl, offset_buf2000, ?_, offset_buf1000, ?_, offset_buf500, ?_⟩
  · rw [runMain_ok buf2000 zeroTail (by rw [length_buf2000, offset_buf2000]; omega)]
  · rw [runMain_ok buf1000 zeroTail (by rw [length_buf1000, offset_buf1000]; omega)]
  · exact runMain_err buf500 zeroTail (by rw [length_buf500, offset_buf500]; omega)

/-- C8: the patcher is deterministic — equal buffers, lengths and tail
records give byte-identical results. -/
theorem C8_deterministic (i1 i2 : List Nat) (l1 l2 : Nat) (t1 t2 : TAIL)
    (h1 : i1 = i2) (h2 : l1 = l2) (h3 : t1 = t2) :
    fix_checksum i1 l1 t1 = fix_checksum i2 l2 t2 := by
  rw [h1, h2, h3]

theorem C8_deterministic_witness :
    fix_checksum buf64 64 zeroTail = fix_checksum buf64 64 zeroTail :=
  C8_deterministic buf64 buf64 64 64 zeroTail zeroTail rfl rfl rfl

/-- C9: patching is not idempotent under composition — applying the
patcher to its own output (with the same fresh tail record) produces a
result different from the single-pass output, exhibited on `buf64`. -/
theorem C9_not_idempotent :
    Except.bind (fix_checksum buf64 64 zeroTail) (fun p => fix_checksum p.1 64 zeroTail) ≠
      fix_checksum buf64 64 zeroTail := by
  have hok1 : ¬ (64 : Nat) < checksum_b_offset buf64 := by decide
  have h1 := fix_checksum_eq_ok buf64 64 zeroTail hok1
  have hok2 : ¬ (64 : Nat) < checksum_b_offset (outOf buf64 zeroTail) := by decide
  have h2 := fix_checksum_eq_ok (outOf buf64 zeroTail) 64 zeroTail hok2
  rw [h1]
  show fix_checksum (outOf buf64 zeroTail) 64 zeroTail ≠
    Except.ok (outOf buf64 zeroTail, tailOf buf64 zeroTail)
  rw [h2]
  intro heq
  have hp : (outOf (outOf buf64 zeroTail) zeroTail).getD 53 0 =
      (outOf buf64 zeroTail).getD 53 0 := by
    injection heq with hpair
    exact congrArg (fun p => (Prod.fst p).getD 53 0) hpair
  have hne : (outOf (outOf buf64 zeroTail) zeroTail).getD 53 0 ≠
      (outOf buf64 zeroTail).getD 53 0 := by decide
  exact hne hp

/-- C10 counterexample: the all-zero 32-byte buffer has
`checksum_b_offset` 32, passes the size check (its length 32 is not
smaller than 32), yet the read of `checksum_b` at index 32 is out of
bounds. -/
theorem C10_counterexample :
    ¬ buf32.length < checksum_b_offset buf32 ∧
      checksum_b_offset buf32 ∈ readFootprint (checksum_b_offset buf32) ∧
      ¬ checksum_b_offset buf32 < buf32.length := by
  decide

/-- C10 (amended): when the buffer length strictly exceeds
`checksum_b_offset` and is at least the 64-byte header size, every byte
read `fix_checksum` performs is within bounds. -/
theorem C10_reads_in_bounds (image : List Nat) (len : Nat)
    (h1 : checksum_b_offset image < len) (h2 : 64 ≤ len) :
    ∀ i ∈ readFootprint (checksum_b_offset image), i < len := by
  intro i hi
  rw [readFootprint, readsBeforeCheck] at hi
  rcases List.mem_append.1 hi with h | h
  · rcases List.mem_append.1 h with h | h
    · rcases List.mem_append.1 h with h | h
      · fin_cases h <;> omega
      · rw [List.mem_singleton.1 h]
        omega
    · obtain ⟨j, hj, hji⟩ := List.mem_map.1 h
      have := List.mem_range.1 hj
      omega
  · have := List.mem_range.1 h
    omega

theorem C10_reads_in_bounds_witness : checksum_b_offset buf64 < 64 :=
  C10_reads_in_bounds buf64 64 (by decide) (by decide)
    (checksum_b_offset buf64) (by decide)

theorem readBE32_writeBytes_be32 (buf : List Nat) (off : Nat) (x : Nat)
    (hx : x < 4294967296) (hb : off + 4 ≤ buf.length) :
    readBE32 (writeBytes buf off (be32 x)) off = x := by
  have h0 := getD_writeBytes_get (be32 x) buf off 0 (by norm_num [be32]) (by omega)
  have h1 := getD_writeBytes_get (be32 x) buf off 1 (by norm_num [be32]) (by omega)
  have h2 := getD_writeBytes_get (be32 x) buf off 2 (by norm_num [be32]) (by omega)
  have h3 := getD_writeBytes_get (be32 x) buf off 3 (by norm_num [be32]) (by omega)
  rw [Nat.add_zero] at h0
  unfold readBE32
  rw [h0, h1, h2, h3]
  show x / 16777216 % 256 % 256 * 16777216 + x / 65536 % 256 % 256 * 65536 +
    x / 256 % 256 % 256 * 256 + x % 256 % 256 = x
  omega

theorem length_zeroedHeaderOf (image : List Nat) (tail : TAIL) :
    (zeroedHeaderOf image tail).length = image.length := by
  unfold zeroedHeaderOf
  rw [length_writeBytes, length_writeBytes]

theorem writeBytes_zero_outOf (image : List Nat) (tail : TAIL) :
    writeBytes (outOf image tail) 4 [0, 0, 0, 0] = zeroedHeaderOf image tail := by
  unfold outOf
  rw [writeBytes_writeBytes_same
    (be32 (crc32_zlib ((zeroedHeaderOf image tail).take 64)))
    [0, 0, 0, 0] (zeroedHeaderOf image tail) 4 (by norm_num [be32])]
  unfold zeroedHeaderOf
  exact writeBytes_writeBytes_same [0, 0, 0, 0] [0, 0, 0, 0] _ 4 rfl

/-- C2: after `fix_checksum` succeeds, the header-CRC field (bytes 4..7)
holds, big-endian, the zlib CRC-32 of the first 64 bytes of the output
with the CRC field itself zeroed: recomputing CRC-32 over the output's
header with its CRC field zeroed reproduces the stored value. -/
theorem C2_header_crc (image : List Nat) (image_len : Nat) (tail : TAIL)
    (hlen : 64 ≤ image.length)
    (hok : ¬ image_len < checksum_b_offset image) :
    ∀ out t2, fix_checksum image image_len tail = Except.ok (out, t2) →
      readBE32 out 4 = crc32_zlib ((writeBytes out 4 [0, 0, 0, 0]).take 64) := by
  intro out t2 hr
  rw [fix_checksum_eq_ok image image_len tail hok, Except.ok.injEq,
    Prod.mk.injEq] at hr
  obtain ⟨h1, h2⟩ := hr
  subst h1
  rw [writeBytes_zero_outOf]
  unfold outOf
  exact readBE32_writeBytes_be32 _ _ _ (crc32_zlib_lt _)
    (by rw [length_zeroedHeaderOf]; omega)

theorem C2_header_crc_witness :
    readBE32 (outOf buf64 zeroTail) 4 =
      crc32_zlib ((writeBytes (outOf buf64 zeroTail) 4 [0, 0, 0, 0]).take 64) :=
  C2_header_crc buf64 64 zeroTail (by decide) (by decide)
    (outOf buf64 zeroTail) (tailOf buf64 zeroTail)
    (fix_checksum_eq_ok buf64 64 zeroTail (by decide))

theorem serializeTail_getD_productid (t : TAIL) (j : Nat) (hj : j < 12) :
    (serializeTail t).getD (4 + j) 0 = t.productid.getD j 0 % 256 := by
  interval_cases j <;> rfl

theorem tailOf_productid_getD_lt (image : List Nat) (tail : TAIL) (j : Nat)
    (hj : j < 11) :
    (tailOf image tail).productid.getD j 0 = image.getD (32 + j) 0 % 256 := by
  show (((List.range 11).map fun i => image.getD (32 + i) 0 % 256) ++
    [tail.productid.getD 11 0]).getD j 0 = _
  interval_cases j <;> rfl

theorem tailOf_productid_getD_11 (image : List Nat) (tail : TAIL) :
    (tailOf image tail).productid.getD 11 0 = tail.productid.getD 11 0 := rfl

theorem outOf_getD_name (image : List Nat) (tail : TAIL) (j : Nat)
    (hj : j < 32) (hb : 32 + j < image.length) :
    (outOf image tail).getD (32 + j) 0 = (serializeTail (tailOf image tail)).getD j 0 := by
  unfold outOf zeroedHeaderOf
  rw [getD_writeBytes_of_ge _ _ _ _ (by norm_num [be32]; omega),
    getD_writeBytes_of_ge _ _ _ _ (by norm_num; omega)]
  exact getD_writeBytes_get _ _ _ _ (by rw [serializeTail_length]; omega) hb

/-- C5: the productid field in the output equals the first 11 bytes of the
original pre-overlay image-name field (copied before the overlay), and the
12th productid byte keeps the value the destination TailRecord already
held; this holds for the returned tail record and for the overlaid bytes
36..47 of the output buffer. -/
theorem C5_productid (image : List Nat) (image_len : Nat) (tail : TAIL)
    (hwf : ∀ b ∈ image, b < 256)
    (hlen : 64 ≤ image.length)
    (hok : ¬ image_len < checksum_b_offset image)
    (hpid : tail.productid.getD 11 0 < 256) :
    ∀ out t2, fix_checksum image image_len tail = Except.ok (out, t2) →
      ((List.range 11).map fun j => out.getD (36 + j) 0) =
        ((List.range 11).map fun j => image.getD (32 + j) 0) ∧
      out.getD 47 0 = tail.productid.getD 11 0 ∧
      t2.productid = ((List.range 11).map fun j => image.getD (32 + j) 0) ++
        [tail.productid.getD 11 0] := by
  intro out t2 hr
  rw [fix_checksum_eq_ok image image_len tail hok, Except.ok.injEq,
    Prod.mk.injEq] at hr
  obtain ⟨h1, h2⟩ := hr
  subst h1
  subst h2
  have hbyte : ∀ j, j < 11 →
      (outOf image tail).getD (36 + j) 0 = image.getD (32 + j) 0 := by
    intro j hj
    have h1 : (outOf image tail).getD (32 + (4 + j)) 0 =
        (serializeTail (tailOf image tail)).getD (4 + j) 0 :=
      outOf_getD_name image tail (4 + j) (by omega) (by omega)
    have h2 : (32 : Nat) + (4 + j) = 36 + j := by omega
    rw [h2] at h1
    rw [h1, serializeTail_getD_productid _ _ (by omega),
      tailOf_productid_getD_lt _ _ _ hj]
    have hlt := getD_lt_256 image hwf (32 + j)
    omega
  refine ⟨?_, ?_, ?_⟩
  · exact List.map_congr_left fun j hj => hbyte j (List.mem_range.1 hj)
  · have h1 : (outOf image tail).getD (32 + 15) 0 =
        (serializeTail (tailOf image tail)).getD 15 0 :=
      outOf_getD_name image tail 15 (by omega) (by omega)
    have h15 : (serializeTail (tailOf image tail)).getD (4 + 11) 0 =
        (tailOf image tail).productid.getD 11 0 % 256 :=
      serializeTail_getD_productid _ 11 (by omega)
    rw [show (32 : Nat) + 15 = 47 from rfl] at h1
    rw [show (4 : Nat) + 11 = 15 from rfl] at h15
    rw [h1, h15, tailOf_productid_getD_11, Nat.mod_eq_of_lt hpid]
  · show ((List.range 11).map fun i => image.getD (32 + i) 0 % 256) ++
      [tail.productid.getD 11 0] = _
    rw [List.append_cancel_right_eq]
    exact List.map_congr_left fun j hj =>
      Nat.mod_eq_of_lt (getD_lt_256 image hwf (32 + j))

theorem C5_productid_witness :
    ((List.range 11).map fun j => (outOf buf64 zeroTail).getD (36 + j) 0) =
      ((List.range 11).map fun j => buf64.getD (32 + j) 0) ∧
    (outOf buf64 zeroTail).getD 47 0 = zeroTail.productid.getD 11 0 ∧
    (tailOf buf64 zeroTail).productid =
      ((List.range 11).map fun j => buf64.getD (32 + j) 0) ++
        [zeroTail.productid.getD 11 0] :=
  C5_productid buf64 64 zeroTail (by decide) (by decide) (by decide) (by decide)
    (outOf buf64 zeroTail) (tailOf buf64 zeroTail)
    (fix_checksum_eq_ok buf64 64 zeroTail (by decide))

/-- C6: `fix_checksum` modifies only the header-CRC field (bytes 4..7) and
the image-name/union region (bytes 32..63); every other byte of the buffer
is unchanged in the output, and the length is preserved. -/
theorem C6_frame (image : List Nat) (image_len : Nat) (tail : TAIL)
    (hok : ¬ image_len < checksum_b_offset image) :
    ∀ out t2, fix_checksum image image_len tail = Except.ok (out, t2) →
      frameAgrees out image = true := by
  intro out t2 hr
  rw [fix_checksum_eq_ok image image_len tail hok, Except.ok.injEq,
    Prod.mk.injEq] at hr
  obtain ⟨h1, h2⟩ := hr
  subst h1
  unfold frameAgrees
  rw [Bool.and_eq_true, List.all_eq_true]
  constructor
  · rw [beq_iff_eq]
    unfold outOf
    rw [length_writeBytes, length_zeroedHeaderOf]
  · intro i hi
    rw [List.mem_range] at hi
    split
    case isTrue h =>
      rw [beq_iff_eq]
      unfold outOf zeroedHeaderOf
      rcases h with h | ⟨h8, h32⟩ | h
      · rw [getD_writeBytes_of_lt _ _ _ _ (by omega),
          getD_writeBytes_of_lt _ _ _ _ (by omega),
          getD_writeBytes_of_lt _ _ _ _ (by omega)]
      · rw [getD_writeBytes_of_ge _ _ _ _ (by norm_num [be32]; omega),
          getD_writeBytes_of_ge _ _ _ _ (by norm_num; omega),
          getD_writeBytes_of_lt _ _ _ _ (by omega)]
      · rw [getD_writeBytes_of_ge _ _ _ _ (by norm_num [be32]; omega),
          getD_writeBytes_of_ge _ _ _ _ (by norm_num; omega),
          getD_writeBytes_of_ge _ _ _ _ (by rw [serializeTail_length]; omega)]
    case isFalse h => rfl

theorem C6_frame_witness : frameAgrees (outOf buf64 zeroTail) buf64 = true :=
  C6_frame buf64 64 zeroTail (by decide)
    (outOf buf64 zeroTail) (tailOf buf64 zeroTail)
    (fix_checksum_eq_ok buf64 64 zeroTail (by decide))

theorem asgn_spec (w old : Nat) (vals : List Nat) (i : Nat) :
    asgn w old vals[i]? = if i < vals.length then vals.getD i 0 % w else old := by
  by_cases h : i < vals.length
  · rw [if_pos h, List.getElem?_eq_getElem h, List.getD_eq_getElem _ _ h]
    rfl
  · rw [if_neg h, List.getElem?_eq_none (by omega)]
    rfl

theorem tailField_versionStep (s : String) (i : Nat) (hi : i < 6) :
    tailField (versionStep zeroTail s).tail i =
      asgn (fieldWidth i) 0 (parseVersionFields 6 s.data)[i]? := by
  interval_cases i <;> rfl

/-- C7: for every version string that does not parse into exactly six
dotted fields, the warning flag is set but the program does not abort; the
fields that did parse are applied positionally and every remaining
TailRecord field keeps its zero-initialized value. -/
theorem C7_version_partial (s : String)
    (h : (parseVersionFields 6 s.data).length ≠ 6) :
    (versionStep zeroTail s).warned = true ∧
      (versionStep zeroTail s).aborted = false ∧
      versionFieldsOk s = true ∧
      (versionStep zeroTail s).tail.productid = List.replicate 12 0 ∧
      (versionStep zeroTail s).tail.pkey = 0 ∧
      (versionStep zeroTail s).tail.key = 0 ∧
      (versionStep zeroTail s).tail.hw = List.replicate 5 ⟨0, 0⟩ := by
  refine ⟨?_, rfl, ?_, rfl, rfl, rfl, rfl⟩
  · show ((parseVersionFields 6 s.data).length != 6) = true
    exact bne_iff_ne.mpr h
  · simp only [versionFieldsOk, List.all_eq_true]
    intro i hi
    rw [List.mem_range] at hi
    rw [tailField_versionStep s i hi, asgn_spec]
    by_cases hv : i < (parseVersionFields 6 s.data).length
    · rw [if_pos hv, if_pos hv]
      exact beq_self_eq_true _
    · rw [if_neg hv, if_neg hv]
      exact beq_self_eq_true _

theorem C7_version_partial_witness :
    (versionStep zeroTail "1.2.3").warned = true ∧
      (versionStep zeroTail "1.2.3").aborted = false ∧
      versionFieldsOk "1.2.3" = true ∧
      (versionStep zeroTail "1.2.3").tail.productid = List.replicate 12 0 ∧
      (versionStep zeroTail "1.2.3").tail.pkey = 0 ∧
      (versionStep zeroTail "1.2.3").tail.key = 0 ∧
      (versionStep zeroTail "1.2.3").tail.hw = List.replicate 5 ⟨0, 0⟩ :=
  C7_version_partial "1.2.3" (by decide)

end AsusQca
